import Mathlib

/-!
Shallow embedding of `sxs/waveforms/alignment.py` (functions `align1d` and
`align2d`) and proofs about the claims of the specification.

Modelling conventions:
* Python floats are modelled as elements of a linear ordered field `K`
  (instantiated at `ℝ` in the statements that involve `sqrt` or `π`, and at
  `ℚ` in concrete evaluations).
* External scipy/numpy routines that are simple and fully specified
  (`np.linspace`, `scipy.integrate.trapezoid`, `np.argmin`, `np.meshgrid`)
  are embedded directly; opaque numeric routines (`CubicSpline`,
  `np.sqrt`, `least_squares`, `np.exp`) are taken as explicit function
  parameters of the embedding.
* A `raise` is modelled as an error value (`Option`/event trace); the order
  of the side-effecting steps of `align2d` is recorded as an event list.
-/

namespace SxsAlign

/-- Inclusive integer interval `a..b` as a list (empty when `b < a`);
the embedding of Python's `range(a, b + 1)`. -/
def intRange (a b : ℤ) : List ℤ :=
  (List.range (b + 1 - a).toNat).map fun i => a + i

/-- Index of mode `(L, M)` in the flat mode ordering of
`spherical_functions.LM_index`: modes ordered by `L` ascending then `M`
ascending, starting at `ell_min`. -/
def LM (L M ell_min : ℤ) : ℤ := L * L + L + M - ell_min * ell_min

/-- The azimuthal indices `m`, in storage order, of all modes with
`ellLo ≤ ℓ ≤ ellHi`: the list `[M for L in range(ellLo, ellHi+1) for M in
range(-L, L+1)]`. -/
def mValues (ellLo ellHi : ℤ) : List ℤ :=
  (intRange ellLo ellHi).flatMap fun L => intRange (-L) L

/-- Embedding of `np.linspace(a, b, num=n)` (endpoint included). -/
def linspace {K : Type*} [LinearOrderedField K] (a b : K) (n : ℕ) : List K :=
  if n ≤ 1 then (List.range n).map fun _ => a
  else (List.range n).map fun i : ℕ => a + (i : K) * ((b - a) / ((n : K) - 1))

/-- Embedding of `np.linspace(a, b, n, endpoint=False)`: step `(b - a) / n`. -/
def linspaceFalse {K : Type*} [LinearOrderedField K] (a b : K) (n : ℕ) : List K :=
  (List.range n).map fun i : ℕ => a + (i : K) * ((b - a) / (n : K))

/-- Embedding of `scipy.integrate.trapezoid(y, x)` for 1-D arrays:
the sum over consecutive samples of `(x[i+1] - x[i]) * (y[i] + y[i+1]) / 2`. -/
def trapezoid {K : Type*} [LinearOrderedField K] : List K → List K → K
  | y0 :: y1 :: ys, x0 :: x1 :: xs =>
      (x1 - x0) * (y0 + y1) / 2 + trapezoid (y1 :: ys) (x1 :: xs)
  | _, _ => 0

/-- Embedding of `np.argmin`: index of the first minimal element
(`0` for the empty list). -/
def argminIdx {K : Type*} [LinearOrder K] : List K → ℕ
  | [] => 0
  | [_] => 0
  | a :: b :: l =>
      if a ≤ (b :: l).getD (argminIdx (b :: l)) b then 0
      else argminIdx (b :: l) + 1

/-- Candidate pairs in the order produced by
`np.array(np.meshgrid(xs, ys)).T.reshape(-1, 2)`: all pairs `(x, y)`,
`x`-major. -/
def gridProduct {α : Type*} (xs ys : List α) : List (α × α) :=
  xs.flatMap fun x => ys.map fun y => (x, y)

/-- Norm-level view of a waveform, as consumed by `align1d`: the sample
times `wa.t` and the corresponding norm values `wa.norm.ndarray`. -/
structure WaveformN (K : Type*) where
  t : List K
  norm : List K

/-- Mode-level view of a waveform, as consumed by `align2d`: sample times,
a (time × mode) array of mode coefficients, and the stored ℓ range.  The
coefficients are complex numbers; the coefficient type is kept as a field
parameter `C`, instantiated at `ℂ` in the statements about the program. -/
structure WaveformModes (K : Type*) (C : Type*) where
  t : List K
  data : List (List C)
  ell_min : ℤ
  ell_max : ℤ

section Defs

variable {K : Type*} [LinearOrderedField K]

/-- The boolean window mask `(t >= t1) & (t <= t2)` from the source. -/
def windowMask (t1 t2 t : K) : Bool := decide (t1 ≤ t) && decide (t ≤ t2)

/-- The `(time, norm)` samples of `wa` whose time lies in `[t1, t2]`:
the common mask `(wa.t>=t1)&(wa.t<=t2)` of source lines 99 and 102, applied
simultaneously to `wa.t` and `wa.norm.ndarray`. -/
def windowSamples (wa : WaveformN K) (t1 t2 : K) : List (K × K) :=
  (wa.t.zip wa.norm).filter fun p => windowMask t1 t2 p.1

/-- `t_reference = wa.t[(wa.t>=t1)&(wa.t<=t2)]` (source line 99). -/
def t_reference (wa : WaveformN K) (t1 t2 : K) : List K :=
  (windowSamples wa t1 t2).map Prod.fst

/-- `norm_a = wa.norm.ndarray[(wa.t>=t1)&(wa.t<=t2)]` (source line 102). -/
def norm_a (wa : WaveformN K) (t1 t2 : K) : List K :=
  (windowSamples wa t1 t2).map Prod.snd

/-- `normalization = trapezoid(norm_a**2, t_reference)` (source line 104). -/
def align1dNormalization (wa : WaveformN K) (t1 t2 : K) : K :=
  trapezoid ((norm_a wa t1 t2).map fun v => v ^ 2) (t_reference wa t1 t2)

/-- The cost function defined inside `align1d` (source lines 105–107):
`np.sqrt(trapezoid((norm_a - norm_b(t_reference+δt))**2, t_reference) /
normalization)`.  `sqrtFn` stands for `np.sqrt` and `normB` for the
`CubicSpline` interpolant of wb's norm. -/
def align1dCost (sqrtFn : K → K) (normB : K → K) (wa : WaveformN K)
    (t1 t2 δt : K) : K :=
  sqrtFn (trapezoid
      ((windowSamples wa t1 t2).map fun p => (p.2 - normB (p.1 + δt)) ^ 2)
      (t_reference wa t1 t2)
    / align1dNormalization wa t1 t2)

/-- Modelled from the spec (§4.1, for the refinement check of C1):
`norm_a` viewed as a function of a reference time — wa's norm value at that
sample time. -/
def normAt (wa : WaveformN K) (t : K) : K :=
  (((wa.t.zip wa.norm).find? fun p => decide (p.1 = t)).getD (0, 0)).2

/-- Modelled from the spec (§4.1 step 3): the reference times `T`, "wa's
sample times lying in `[t1, t2]`". -/
def specT (wa : WaveformN K) (t1 t2 : K) : List K :=
  wa.t.filter fun t => windowMask t1 t2 t

/-- The cost formula exactly as the spec states it (claim C1):
`sqrt( ∫_T (norm_a(t) − norm_b(t+δt))² dt / ∫_T norm_a(t)² dt )` with both
integrals evaluated by trapezoidal quadrature over `T`. -/
def align1dCostSpec (sqrtFn : K → K) (normB : K → K) (wa : WaveformN K)
    (t1 t2 δt : K) : K :=
  sqrtFn (trapezoid
      ((specT wa t1 t2).map fun t => (normAt wa t - normB (t + δt)) ^ 2)
      (specT wa t1 t2)
    / trapezoid ((specT wa t1 t2).map fun t => normAt wa t ^ 2)
      (specT wa t1 t2))

/-- `δt_lower = max(t1 - t2, wb.t[0] - t1)` (source line 89). -/
def δt_lower (wb : WaveformN K) (t1 t2 : K) : K :=
  max (t1 - t2) (wb.t.headD 0 - t1)

/-- `δt_upper = min(t2 - t1, wb.t[-1] - t2)` (source line 90). -/
def δt_upper (wb : WaveformN K) (t1 t2 : K) : K :=
  min (t2 - t1) (wb.t.getLastD 0 - t2)

/-- `sum((ts >= t1) & (ts <= t2))`: the number of sample times in the
window (source lines 95 and 212). -/
def countWindow (ts : List K) (t1 t2 : K) : ℕ :=
  (ts.filter fun t => windowMask t1 t2 t).length

/-- The window-validation condition shared by `align1d` (lines 81–86) and
`align2d` (lines 198–203): the `raise` branch is taken iff this holds. -/
def badWindow (waT wbT : List K) (t1 t2 : K) : Prop :=
  t2 ≤ t1 ∨ t1 < waT.headD 0 ∨ waT.getLastD 0 < t2
    ∨ t1 < wbT.headD 0 ∨ wbT.getLastD 0 < t2

instance badWindowDec (waT wbT : List K) (t1 t2 : K) :
    Decidable (badWindow waT wbT t1 t2) := by
  unfold badWindow; infer_instance

end Defs

/-- Observable steps of a call, in program order: creating the private
copies of the inputs, raising the window error, zeroing excluded modes in
the working copies, and the numerical stage (which assigns nothing). -/
inductive Ev where
  | copyA
  | copyB
  | raiseWindow
  | zeroModes
  | numerics
deriving DecidableEq

/-- Pure data assembled by `align1d` after validation passes. -/
structure Align1dData (K : Type*) where
  lower : K
  upper : K
  grid : List K
  tref : List K
  na : List K

/-- Outcome of a call to `align1d`: the event trace, the caller's two
waveform objects as they stand after the call, and the assembled data
(`none` when the window error was raised). -/
structure Align1dRun (K : Type*) where
  events : List Ev
  wa : WaveformN K
  wb : WaveformN K
  result : Option (Align1dData K)

section Align1d

variable {K : Type*} [LinearOrderedField K]

/-- Operational embedding of `align1d` (source lines 80–116) up to the
numeric optimisation stage: validation, shift bounds, brute-force grid and
reference data.  `align1d` contains no assignment to `wa` or `wb`, so the
returned objects are the inputs.  The Python default `n_brute_force=None`
is `none`. -/
def align1dRun (wa wb : WaveformN K) (t1 t2 : K) (nBF : Option ℕ) :
    Align1dRun K :=
  if badWindow wa.t wb.t t1 t2 then
    { events := [.raiseWindow], wa := wa, wb := wb, result := none }
  else
    let n := match nBF with
      | none => max (countWindow wa.t t1 t2) (countWindow wb.t t1 t2)
      | some k => k
    { events := [.numerics], wa := wa, wb := wb,
      result := some
        { lower := δt_lower wb t1 t2, upper := δt_upper wb t1 t2,
          grid := linspace (δt_lower wb t1 t2) (δt_upper wb t1 t2) n,
          tref := t_reference wa t1 t2, na := norm_a wa t1 t2 } }

end Align1d

section Align2dDefs

variable {K : Type*} [LinearOrderedField K] {C : Type*} [Field C]

/-- `t_reference` of `align2d` (source line 221): the contiguous slice of
`wa_copy.t` from the index of the sample nearest to `t1` through the index
of the sample nearest to `t2`, inclusive. -/
def tReference2d (waT : List K) (t1 t2 : K) : List K :=
  let i := argminIdx (waT.map fun t => |t - t1|)
  let j := argminIdx (waT.map fun t => |t - t2|)
  (waT.drop i).take (j + 1 - i)

/-- `w.data[:, jcol] *= 0` (source lines 229–230): zero one column of the
(time × mode) array. -/
def zeroColumn (rows : List (List C)) (jcol : ℤ) : List (List C) :=
  rows.map fun row => row.mapIdx fun i x => if (i : ℤ) = jcol then 0 else x

/-- The `(L, M)` pairs with `2 ≤ L ≤ ell_max` that are *not* in
`include_modes` (the loop of source lines 226–228). -/
def excludedPairs (ell_max : ℤ) (inc : List (ℤ × ℤ)) : List (ℤ × ℤ) :=
  ((intRange 2 ell_max).flatMap fun L =>
      (intRange (-L) L).map fun M => (L, M)).filter fun p => decide (p ∉ inc)

/-- Mode filtering of a working copy (source lines 225–230): zero the
column of every mode with `2 ≤ ℓ ≤ ell_max` not in `include_modes`. -/
def zeroExcluded (w : WaveformModes K C) (ell_max : ℤ) (inc : List (ℤ × ℤ)) :
    WaveformModes K C :=
  { w with
    data := (excludedPairs ell_max inc).foldl
      (fun d p => zeroColumn d (LM p.1 p.2 w.ell_min)) w.data }

/-- `δϕ_factor` (source line 238): the `m` of every mode of wa's *full*
stored range, `[M for L in range(wa_copy.ell_min, wa_copy.ell_max + 1) for M
in range(-L, L + 1)]`. -/
def align2dδϕFactor (ell_min ell_max : ℤ) : List ℤ := mValues ell_min ell_max

/-- First column of the retained-mode slice: `LM(2, -2, ell_min)`
(source lines 233–234 and 252). -/
def sliceLo (ell_min : ℤ) : ℤ := LM 2 (-2) ell_min

/-- One-past-the-end column of the retained-mode slice:
`LM(ell_max+1, -(ell_max+1), ell_min)` (source lines 233–234 and 252). -/
def sliceHi (ell_min ell_max : ℤ) : ℤ :=
  LM (ell_max + 1) (-(ell_max + 1)) ell_min

/-- The column slice `rows[:, lo:hi]` of a (time × mode) array. -/
def sliceCols (rows : List (List C)) (lo hi : ℤ) : List (List C) :=
  rows.map fun r => (r.drop lo.toNat).take (hi - lo).toNat

/-- Elementwise product of each row with a vector of factors
(numpy broadcasting of `array * factors`): defined only when every row has
exactly the factors' length, `none` (a numpy broadcast error) otherwise. -/
def broadcastMul (rows : List (List C)) (facs : List C) :
    Option (List (List C)) :=
  if rows.all fun r => r.length == facs.length then
    some (rows.map fun r => r.zipWith (fun a f => a * f) facs)
  else none

/-- Embedding of the `wa_prime` construction (source lines 252–257), applied
to a waveform `wa` and a retained-range bound `ell_max`:
slice the mode columns `ℓ ∈ [2, ell_max]` out of `wa.data`, re-sample their
interpolant (`splineC`, standing for `CubicSpline`) at the shifted times
`wa.t + δt`, multiply by `phase ** δϕ_factor` where `phase` stands for
`np.exp(1j * δϕ)`, and package the result with time axis `wa.t + δt` and
ℓ range `[2, ell_max]`.  Returns `none` when the exponent array's length
differs from the sliced array's width (numpy broadcast error). -/
def waPrime (splineC : List K → List (List C) → K → List C)
    (wa : WaveformModes K C) (ell_max : ℤ) (δt : K) (phase : C) :
    Option (WaveformModes K C) :=
  let sliced := sliceCols wa.data (sliceLo wa.ell_min)
    (sliceHi wa.ell_min ell_max)
  let rows := (wa.t.map fun t => t + δt).map fun s => splineC wa.t sliced s
  match broadcastMul rows
      ((align2dδϕFactor wa.ell_min wa.ell_max).map fun m => phase ^ m) with
  | some d => some { t := wa.t.map fun t => t + δt, data := d,
                     ell_min := 2, ell_max := ell_max }
  | none => none

/-- The `wa_prime` of `align2d`: the construction above applied to the
*original* `wa` (not the working copy) with
`ell_max = min(wa.ell_max, wb.ell_max)` (source lines 224 and 252–257). -/
def align2dWaPrime (splineC : List K → List (List C) → K → List C)
    (wa wb : WaveformModes K C) (δt : K) (phase : C) :
    Option (WaveformModes K C) :=
  waPrime splineC wa (min wa.ell_max wb.ell_max) δt phase

/-- Resolution of `n_brute_force_δϕ` (source lines 118 and 215–216): the
Python default argument `5` is modelled as `some 5`; an explicit `None` is
`none`, which the code replaces by `2 * wa_copy.ell_max + 1`. -/
def align2dNδϕ (nδϕ : Option ℕ) (waEllMax : ℤ) : ℕ :=
  match nδϕ with
  | none => (2 * waEllMax + 1).toNat
  | some k => k

/-- Pure data assembled by `align2d` after validation passes. -/
structure Align2dData (K : Type*) (C : Type*) where
  lower : K
  upper : K
  δt_grid : List K
  δϕ_grid : List K
  candidates : List (K × K)
  tref : List K
  ℓmax : ℤ
  wa_f : WaveformModes K C
  wb_f : WaveformModes K C
  factor : List ℤ
  wa_prime_of : K → C → Option (WaveformModes K C)

/-- Outcome of a call to `align2d`: the event trace, the caller's two
waveform objects as they stand after the call, and the assembled data
(`none` when the window error was raised). -/
structure Align2dRun (K : Type*) (C : Type*) where
  events : List Ev
  wa : WaveformModes K C
  wb : WaveformModes K C
  result : Option (Align2dData K C)

/-- Operational embedding of `align2d` (source lines 194–259) up to the
numeric cost/optimisation stage, which assigns nothing and is recorded as a
single `numerics` event.  `wa.copy()` / `wb.copy()` produce independent deep
copies (input contract, spec §6), modelled by value semantics: the working
copies are separate bindings `wa_copy` / `wb_copy`, and the mode-zeroing of
lines 229–230 rebinds only them.  `π2` stands for the constant `2*np.pi`,
and `splineC` for `CubicSpline` on complex mode arrays. -/
def align2dRun (π2 : K) (splineC : List K → List (List C) → K → List C)
    (wa wb : WaveformModes K C) (t1 t2 : K) (nδt nδϕ : Option ℕ)
    (inc : Option (List (ℤ × ℤ))) : Align2dRun K C :=
  let wa_copy := wa
  let wb_copy := wb
  if badWindow wa_copy.t wb_copy.t t1 t2 then
    { events := [.copyA, .copyB, .raiseWindow], wa := wa, wb := wb,
      result := none }
  else
    let lower := max (t1 - t2) (wa_copy.t.headD 0 - t1)
    let upper := min (t2 - t1) (wa_copy.t.getLastD 0 - t2)
    let n1 := match nδt with
      | none => max (countWindow wa_copy.t t1 t2) (countWindow wb_copy.t t1 t2)
      | some k => k
    let δtg := linspace lower upper n1
    let δϕg := linspaceFalse 0 π2 (align2dNδϕ nδϕ wa_copy.ell_max)
    let tref := tReference2d wa_copy.t t1 t2
    let ℓmax := min wa_copy.ell_max wb_copy.ell_max
    let wa_f := match inc with
      | some modes => zeroExcluded wa_copy ℓmax modes
      | none => wa_copy
    let wb_f := match inc with
      | some modes => zeroExcluded wb_copy ℓmax modes
      | none => wb_copy
    { events := [.copyA, .copyB]
        ++ (match inc with | some _ => [.zeroModes] | none => [])
        ++ [.numerics],
      wa := wa, wb := wb,
      result := some
        { lower := lower, upper := upper, δt_grid := δtg, δϕ_grid := δϕg,
          candidates := gridProduct δtg δϕg, tref := tref, ℓmax := ℓmax,
          wa_f := wa_f, wb_f := wb_f,
          factor := align2dδϕFactor wa_copy.ell_min wa_copy.ell_max,
          wa_prime_of := fun δt phase => align2dWaPrime splineC wa wb δt phase } }

end Align2dDefs

section Helpers

variable {K : Type*} [LinearOrderedField K]

theorem map_fst_filter_zip {α β : Type*} (p : α → Bool) :
    ∀ (a : List α) (b : List β), a.length = b.length →
      ((a.zip b).filter fun q => p q.1).map Prod.fst = a.filter p := by
  intro a
  induction a with
  | nil => intro b _; simp
  | cons x xs ih =>
    intro b h
    cases b with
    | nil => simp at h
    | cons y ys =>
      have hlen : xs.length = ys.length := by simpa using h
      by_cases hp : p x
      · simp [List.filter_cons, hp, ih ys hlen]
      · simp [List.filter_cons, hp, ih ys hlen]

theorem find?_zip_eq {α β : Type*} [DecidableEq α] :
    ∀ (a : List α) (b : List β), a.Nodup → a.length = b.length →
      ∀ p ∈ a.zip b, (a.zip b).find? (fun q => decide (q.1 = p.1)) = some p := by
  intro a
  induction a with
  | nil => intro b _ _ p hp; simp at hp
  | cons x xs ih =>
    intro b hnd h p hp
    cases b with
    | nil => simp at h
    | cons y ys =>
      have hlen : xs.length = ys.length := by simpa using h
      rcases List.mem_cons.mp hp with hhead | htail
      · subst hhead
        simp [List.find?_cons]
      · have hx : p.1 ∈ xs := (List.of_mem_zip htail).1
        have hne : ¬(x = p.1) := by
          intro hxx
          exact (List.nodup_cons.mp hnd).1 (hxx ▸ hx)
        rw [List.zip_cons_cons, List.find?_cons]
        have hd : (decide (x = p.1)) = false := by
          simpa using hne
        rw [hd]
        exact ih ys (List.nodup_cons.mp hnd).2 hlen p htail

theorem linspace_mem {a b x : K} {n : ℕ}
    (hab : a ≤ b) (hx : x ∈ linspace a b n) : a ≤ x ∧ x ≤ b := by
  unfold linspace at hx
  by_cases h1 : n ≤ 1
  · simp only [h1, if_true, List.mem_map, List.mem_range] at hx
    obtain ⟨i, _, rfl⟩ := hx
    exact ⟨le_refl a, hab⟩
  · simp only [h1, if_false, List.mem_map, List.mem_range] at hx
    obtain ⟨i, hi, rfl⟩ := hx
    have h2 : 2 ≤ n := by omega
    have hn1 : (0 : K) < (n : K) - 1 := by
      have : (2 : K) ≤ (n : K) := by exact_mod_cast h2
      linarith
    have hc : 0 ≤ (b - a) / ((n : K) - 1) :=
      div_nonneg (by linarith) (le_of_lt hn1)
    refine ⟨by nlinarith [mul_nonneg (Nat.cast_nonneg (α := K) i) hc], ?_⟩
    have hi1 : (i : K) ≤ (n : K) - 1 := by
      have hile : (i + 1 : ℕ) ≤ n := hi
      have := (Nat.cast_le (α := K)).mpr hile
      push_cast at this
      linarith
    have hstep : (i : K) * ((b - a) / ((n : K) - 1))
        ≤ ((n : K) - 1) * ((b - a) / ((n : K) - 1)) :=
      mul_le_mul_of_nonneg_right hi1 hc
    have he : ((n : K) - 1) * ((b - a) / ((n : K) - 1)) = b - a := by
      field_simp
    linarith

theorem linspaceFalse_getD (a b : K) {n k : ℕ} (hk : k < n) :
    (linspaceFalse a b n).getD k 0 = a + (k : K) * ((b - a) / (n : K)) := by
  unfold linspaceFalse
  rw [List.getD_eq_getElem?_getD, List.getElem?_map, List.getElem?_range hk]
  rfl

theorem linspaceFalse_length (a b : K) (n : ℕ) :
    (linspaceFalse a b n).length = n := by
  simp [linspaceFalse]

end Helpers

section ClaimC1

theorem align1dCost_eq_costSpec {K : Type*} [LinearOrderedField K]
    (sqrtFn : K → K) (normB : K → K) (wa : WaveformN K) (t1 t2 δt : K)
    (hlen : wa.t.length = wa.norm.length)
    (hsorted : wa.t.Pairwise (· < ·)) :
    align1dCost sqrtFn normB wa t1 t2 δt
      = align1dCostSpec sqrtFn normB wa t1 t2 δt := by
  have hnd : wa.t.Nodup := hsorted.imp fun h => ne_of_lt h
  have hTs : t_reference wa t1 t2 = specT wa t1 t2 :=
    map_fst_filter_zip _ wa.t wa.norm hlen
  have hsnd : ∀ p ∈ windowSamples wa t1 t2, normAt wa p.1 = p.2 := by
    intro p hp
    have hpz : p ∈ wa.t.zip wa.norm := List.mem_of_mem_filter hp
    unfold normAt
    rw [find?_zip_eq wa.t wa.norm hnd hlen p hpz]
    rfl
  have h1 : (windowSamples wa t1 t2).map (fun p => (p.2 - normB (p.1 + δt)) ^ 2)
      = (specT wa t1 t2).map fun t => (normAt wa t - normB (t + δt)) ^ 2 := by
    rw [← hTs]
    unfold t_reference
    rw [List.map_map]
    apply List.map_congr_left
    intro p hp
    simp only [Function.comp_apply]
    rw [hsnd p hp]
  have h2 : (norm_a wa t1 t2).map (fun v => v ^ 2)
      = (specT wa t1 t2).map fun t => normAt wa t ^ 2 := by
    rw [← hTs]
    unfold norm_a t_reference
    rw [List.map_map, List.map_map]
    apply List.map_congr_left
    intro p hp
    simp only [Function.comp_apply]
    rw [hsnd p hp]
  unfold align1dCost align1dCostSpec align1dNormalization
  rw [h1, h2, hTs]

/-- C1: for every valid call `align1d(wa, wb, t1, t2)`, the cost function
minimized is `cost(δt) = sqrt(∫_T (norm_a(t) − norm_b(t+δt))² dt /
∫_T norm_a(t)² dt)`, where `T` is exactly wa's sample times lying in
`[t1, t2]`, `norm_a` is wa's norm restricted to those samples, `norm_b` is
the cubic-spline interpolant (`spline`) of wb's norm over wb's native
sample times, and both integrals are evaluated by trapezoidal quadrature
over `T`.  Stated as a refinement: the cost of the source embedding equals
the spec's formula, for every δt and every spline operator. -/
theorem align1d_cost_is_spec_formula
    (spline : List ℝ → List ℝ → ℝ → ℝ) (wa wb : WaveformN ℝ) (t1 t2 δt : ℝ)
    (hlen : wa.t.length = wa.norm.length)
    (hsorted : wa.t.Pairwise (· < ·)) :
    align1dCost Real.sqrt (spline wb.t wb.norm) wa t1 t2 δt
      = align1dCostSpec Real.sqrt (spline wb.t wb.norm) wa t1 t2 δt :=
  align1dCost_eq_costSpec Real.sqrt (spline wb.t wb.norm) wa t1 t2 δt hlen
    hsorted

theorem align1d_cost_is_spec_formula_w :
    (([0, 1, 2] : List ℝ).length = ([3, 4, 5] : List ℝ).length
      ∧ ([0, 1, 2] : List ℝ).Pairwise (· < ·))
    ∧ align1dCost Real.sqrt ((fun _ _ x => x) ([] : List ℝ) ([] : List ℝ))
        ⟨[0, 1, 2], [3, 4, 5]⟩ 0 2 1
      = align1dCostSpec Real.sqrt ((fun _ _ x => x) ([] : List ℝ) ([] : List ℝ))
        ⟨[0, 1, 2], [3, 4, 5]⟩ 0 2 1 := by
  have hp : ([0, 1, 2] : List ℝ).Pairwise (· < ·) := by
    norm_num [List.pairwise_cons]
  exact ⟨⟨rfl, hp⟩,
    align1d_cost_is_spec_formula (fun _ _ x => x) ⟨[0, 1, 2], [3, 4, 5]⟩
      ⟨[], []⟩ 0 2 1 rfl hp⟩

end ClaimC1

section ClaimC3

/-- C3: in `align1d` the admissible shift bounds are
`δt_lower = max(t1 − t2, wb.t_min − t1)` and
`δt_upper = min(t2 − t1, wb.t_max − t2)`; for every `δt ∈ [δt_lower,
δt_upper]` and every reference time `t ∈ [t1, t2]` the shifted time
`t + δt` lies in `[wb.t_min, wb.t_max]`, and (window validation having
passed) every brute-force grid point lies in `[δt_lower, δt_upper]` — so
the interpolant of wb's norm is never evaluated outside wb's sampled range
during the brute-force search or the bounded refinement. -/
theorem align1d_shift_bounds_safe {K : Type*} [LinearOrderedField K]
    (wb : WaveformN K) (t1 t2 : K) (n : ℕ)
    (h12 : t1 < t2) (hlo : wb.t.headD 0 ≤ t1) (hhi : t2 ≤ wb.t.getLastD 0) :
    (∀ δt, δt_lower wb t1 t2 ≤ δt → δt ≤ δt_upper wb t1 t2 →
        ∀ t, t1 ≤ t → t ≤ t2 →
          wb.t.headD 0 ≤ t + δt ∧ t + δt ≤ wb.t.getLastD 0)
    ∧ (∀ δt ∈ linspace (δt_lower wb t1 t2) (δt_upper wb t1 t2) n,
        δt_lower wb t1 t2 ≤ δt ∧ δt ≤ δt_upper wb t1 t2) := by
  constructor
  · intro δt hl hu t ht1 ht2
    have h1 : wb.t.headD 0 - t1 ≤ δt :=
      le_trans (le_max_right _ _) hl
    have h2 : δt ≤ wb.t.getLastD 0 - t2 :=
      le_trans hu (min_le_right _ _)
    exact ⟨by linarith, by linarith⟩
  · intro δt hδ
    refine linspace_mem ?_ hδ
    unfold δt_lower δt_upper
    have hmax : max (t1 - t2) (wb.t.headD 0 - t1) ≤ 0 :=
      max_le (by linarith) (by linarith)
    have hmin : (0 : K) ≤ min (t2 - t1) (wb.t.getLastD 0 - t2) :=
      le_min (by linarith) (by linarith)
    linarith

theorem align1d_shift_bounds_safe_w :
    ((5 : ℚ) < 10 ∧ (⟨[0, 20], [0, 0]⟩ : WaveformN ℚ).t.headD 0 ≤ 5
      ∧ (10 : ℚ) ≤ (⟨[0, 20], [0, 0]⟩ : WaveformN ℚ).t.getLastD 0)
    ∧ ((∀ δt, δt_lower (⟨[0, 20], [0, 0]⟩ : WaveformN ℚ) 5 10 ≤ δt →
          δt ≤ δt_upper (⟨[0, 20], [0, 0]⟩ : WaveformN ℚ) 5 10 →
          ∀ t, (5 : ℚ) ≤ t → t ≤ 10 →
            (⟨[0, 20], [0, 0]⟩ : WaveformN ℚ).t.headD 0 ≤ t + δt
              ∧ t + δt ≤ (⟨[0, 20], [0, 0]⟩ : WaveformN ℚ).t.getLastD 0)
      ∧ (∀ δt ∈ linspace (δt_lower (⟨[0, 20], [0, 0]⟩ : WaveformN ℚ) 5 10)
            (δt_upper (⟨[0, 20], [0, 0]⟩ : WaveformN ℚ) 5 10) 3,
          δt_lower (⟨[0, 20], [0, 0]⟩ : WaveformN ℚ) 5 10 ≤ δt
            ∧ δt ≤ δt_upper (⟨[0, 20], [0, 0]⟩ : WaveformN ℚ) 5 10)) :=
  ⟨⟨by decide, by decide, by decide⟩,
    align1d_shift_bounds_safe ⟨[0, 20], [0, 0]⟩ 5 10 3 (by decide) (by decide)
      (by decide)⟩

end ClaimC3

section ClaimC4

theorem badWindow_iff {K : Type*} [LinearOrderedField K]
    (waT wbT : List K) (t1 t2 : K) :
    badWindow waT wbT t1 t2 ↔
      (t2 ≤ t1 ∨ ¬(waT.headD 0 ≤ t1 ∧ t2 ≤ waT.getLastD 0)
        ∨ ¬(wbT.headD 0 ≤ t1 ∧ t2 ≤ wbT.getLastD 0)) := by
  rw [not_and_or, not_and_or, not_le, not_le, not_le, not_le]
  unfold badWindow
  tauto

/-- C4 counterexample: a concrete `align2d` call that violates the window
precondition (`t2 = 30` beyond both waveforms' spans).  The trace is
`[copyA, copyB, raiseWindow]`: the deep copies of both waveforms — which
read the waveforms' full time and mode data — are made before the error is
raised, so the call does read waveform data beyond what validation needs,
contradicting that conjunct of the claim. -/
theorem align2d_reads_data_before_validation :
    (align2dRun (0 : ℚ) (fun _ _ _ => ([] : List ℂ))
        (⟨[0, 20], [], 2, 3⟩ : WaveformModes ℚ ℂ) ⟨[0, 20], [], 2, 2⟩
        0 30 none (some 5) none).events
      = [Ev.copyA, Ev.copyB, Ev.raiseWindow]
    ∧ (align2dRun (0 : ℚ) (fun _ _ _ => ([] : List ℂ))
        (⟨[0, 20], [], 2, 3⟩ : WaveformModes ℚ ℂ) ⟨[0, 20], [], 2, 2⟩
        0 30 none (some 5) none).events.take 2 = [Ev.copyA, Ev.copyB] := by
  constructor <;> decide

/-- C4 amended: a call to `align1d` or `align2d` raises the window error
iff `t2 ≤ t1`, or `[t1, t2]` is not contained in wa's sampled time range,
or not contained in wb's; when it raises, it does so before any numerical
work (the trace holds no `numerics` event), and `align1d` reads no
waveform data beyond what validation needs (its raising trace is exactly
`[raiseWindow]`) — but `align2d` deep-copies both waveforms, reading all
their data, before validation (its raising trace is exactly
`[copyA, copyB, raiseWindow]`). -/
theorem align_window_validation {K : Type*} [LinearOrderedField K]
    (wa wb : WaveformN K) (wam wbm : WaveformModes K ℂ) (t1 t2 : K)
    (nBF nδt nδϕ : Option ℕ) (π2 : K)
    (splineC : List K → List (List ℂ) → K → List ℂ)
    (inc : Option (List (ℤ × ℤ)))
    (hwa : wa.t ≠ []) (hwb : wb.t ≠ [])
    (hwam : wam.t ≠ []) (hwbm : wbm.t ≠ []) :
    ((align1dRun wa wb t1 t2 nBF).result = none ↔
      (t2 ≤ t1 ∨ ¬(wa.t.headD 0 ≤ t1 ∧ t2 ≤ wa.t.getLastD 0)
        ∨ ¬(wb.t.headD 0 ≤ t1 ∧ t2 ≤ wb.t.getLastD 0)))
    ∧ ((align2dRun π2 splineC wam wbm t1 t2 nδt nδϕ inc).result = none ↔
      (t2 ≤ t1 ∨ ¬(wam.t.headD 0 ≤ t1 ∧ t2 ≤ wam.t.getLastD 0)
        ∨ ¬(wbm.t.headD 0 ≤ t1 ∧ t2 ≤ wbm.t.getLastD 0)))
    ∧ (badWindow wa.t wb.t t1 t2 →
        (align1dRun wa wb t1 t2 nBF).events = [Ev.raiseWindow])
    ∧ (badWindow wam.t wbm.t t1 t2 →
        (align2dRun π2 splineC wam wbm t1 t2 nδt nδϕ inc).events
          = [Ev.copyA, Ev.copyB, Ev.raiseWindow])
    ∧ (badWindow wam.t wbm.t t1 t2 →
        Ev.numerics ∉
          (align2dRun π2 splineC wam wbm t1 t2 nδt nδϕ inc).events) := by
  refine ⟨?_, ?_, ?_, ?_, ?_⟩
  · rw [← badWindow_iff]
    by_cases hb : badWindow wa.t wb.t t1 t2 <;> simp [align1dRun, hb]
  · rw [← badWindow_iff]
    by_cases hb : badWindow wam.t wbm.t t1 t2 <;> simp [align2dRun, hb]
  · intro h
    simp [align1dRun, h]
  · intro h
    simp [align2dRun, h]
  · intro h
    simp [align2dRun, h]

theorem align_window_validation_w :
    (([0, 20] : List ℚ) ≠ [] ∧ ([0, 30] : List ℚ) ≠ []
      ∧ ([0, 20] : List ℚ) ≠ [] ∧ ([0, 30] : List ℚ) ≠ [])
    ∧ ((align1dRun (⟨[0, 20], [0, 0]⟩ : WaveformN ℚ) ⟨[0, 30], [0, 0]⟩
          5 10 none).result = none ↔
        ((10 : ℚ) ≤ 5
          ∨ ¬(([0, 20] : List ℚ).headD 0 ≤ 5
                ∧ (10 : ℚ) ≤ ([0, 20] : List ℚ).getLastD 0)
          ∨ ¬(([0, 30] : List ℚ).headD 0 ≤ 5
                ∧ (10 : ℚ) ≤ ([0, 30] : List ℚ).getLastD 0))) :=
  ⟨⟨by decide, by decide, by decide, by decide⟩,
    (align_window_validation (⟨[0, 20], [0, 0]⟩ : WaveformN ℚ)
      ⟨[0, 30], [0, 0]⟩ ⟨[0, 20], [], 2, 2⟩ ⟨[0, 30], [], 2, 2⟩ 5 10
      none none (some 5) 0 (fun _ _ _ => []) none (by decide) (by decide)
      (by decide) (by decide)).1⟩

end ClaimC4

section ClaimC6

/-- C6: neither aligner mutates its input waveforms.  In the operational
embedding, for every call — including `align2d` calls with `include_modes`
given, whose mode-zeroing rebinds only the private working copies — the
caller's waveform objects after the call are exactly the inputs. -/
theorem aligners_do_not_mutate_inputs {K : Type*} [LinearOrderedField K]
    (wa wb : WaveformN K) (wam wbm : WaveformModes K ℂ) (t1 t2 : K)
    (nBF nδt nδϕ : Option ℕ) (π2 : K)
    (splineC : List K → List (List ℂ) → K → List ℂ)
    (inc : Option (List (ℤ × ℤ))) :
    (align1dRun wa wb t1 t2 nBF).wa = wa
    ∧ (align1dRun wa wb t1 t2 nBF).wb = wb
    ∧ (align2dRun π2 splineC wam wbm t1 t2 nδt nδϕ inc).wa = wam
    ∧ (align2dRun π2 splineC wam wbm t1 t2 nδt nδϕ inc).wb = wbm := by
  refine ⟨?_, ?_, ?_, ?_⟩
  · by_cases hb : badWindow wa.t wb.t t1 t2 <;> simp [align1dRun, hb]
  · by_cases hb : badWindow wa.t wb.t t1 t2 <;> simp [align1dRun, hb]
  · by_cases hb : badWindow wam.t wbm.t t1 t2 <;> simp [align2dRun, hb]
  · by_cases hb : badWindow wam.t wbm.t t1 t2 <;> simp [align2dRun, hb]

end ClaimC6

section ClaimC8

/-- C8 counterexample: a concrete call of `align2d` that violates the
window precondition (`t2 = 5 ≤ 10 = t1`).  Its trace is
`[copyA, copyB, raiseWindow]`: the private copies of both waveforms are
created, and only then is the error raised — contradicting the claim that
the error is raised before any copy of either waveform is created. -/
theorem align2d_copies_precede_validation :
    (align2dRun (0 : ℚ) (fun _ _ _ => ([] : List ℂ))
        (⟨[0, 20], [], 2, 2⟩ : WaveformModes ℚ ℂ) ⟨[0, 20], [], 2, 2⟩
        10 5 none (some 5) none).events
      = [Ev.copyA, Ev.copyB, Ev.raiseWindow]
    ∧ Ev.copyA ∈
        (align2dRun (0 : ℚ) (fun _ _ _ => ([] : List ℂ))
          (⟨[0, 20], [], 2, 2⟩ : WaveformModes ℚ ℂ) ⟨[0, 20], [], 2, 2⟩
          10 5 none (some 5) none).events := by
  constructor <;> decide

/-- C8 amended: in `align2d` the private copies of wa and wb are made
*before* window validation; nevertheless, for every call that violates a
window precondition the error is raised with no observable state change:
the trace is exactly copy, copy, raise — no working copy is mutated
(no `zeroModes` event), no numerical work happens (no `numerics` event),
no result is produced, and the caller's objects are untouched. -/
theorem align2d_invalid_window_no_state_change {K : Type*}
    [LinearOrderedField K] (wam wbm : WaveformModes K ℂ) (t1 t2 : K)
    (nδt nδϕ : Option ℕ) (π2 : K)
    (splineC : List K → List (List ℂ) → K → List ℂ)
    (inc : Option (List (ℤ × ℤ)))
    (h : badWindow wam.t wbm.t t1 t2) :
    (align2dRun π2 splineC wam wbm t1 t2 nδt nδϕ inc).events
        = [Ev.copyA, Ev.copyB, Ev.raiseWindow]
    ∧ Ev.zeroModes ∉ (align2dRun π2 splineC wam wbm t1 t2 nδt nδϕ inc).events
    ∧ Ev.numerics ∉ (align2dRun π2 splineC wam wbm t1 t2 nδt nδϕ inc).events
    ∧ (align2dRun π2 splineC wam wbm t1 t2 nδt nδϕ inc).result = none
    ∧ (align2dRun π2 splineC wam wbm t1 t2 nδt nδϕ inc).wa = wam
    ∧ (align2dRun π2 splineC wam wbm t1 t2 nδt nδϕ inc).wb = wbm := by
  refine ⟨?_, ?_, ?_, ?_, ?_, ?_⟩ <;> simp [align2dRun, h]

theorem align2d_invalid_window_no_state_change_w :
    badWindow ([0, 20] : List ℚ) [0, 20] 10 5
    ∧ (align2dRun (0 : ℚ) (fun _ _ _ => ([] : List ℂ))
          (⟨[0, 20], [], 2, 2⟩ : WaveformModes ℚ ℂ) ⟨[0, 20], [], 2, 2⟩
          10 5 none (some 5) none).events
        = [Ev.copyA, Ev.copyB, Ev.raiseWindow] :=
  ⟨by decide,
    (align2d_invalid_window_no_state_change ⟨[0, 20], [], 2, 2⟩
      ⟨[0, 20], [], 2, 2⟩ 10 5 none (some 5) 0 (fun _ _ _ => [])
      none (by decide)).1⟩

end ClaimC8

section ClaimC2

/-- C2 (code defect): `δϕ_factor` is built from wa's *full* stored ℓ range
`[ell_min, ell_max]` (source line 238), while the mode array it multiplies
is sliced to ℓ ∈ [2, min(wa.ell_max, wb.ell_max)] (source lines 233 and
252).  With wa's range [2, 3] and wb.ell_max = 2 the exponent list has the
12 entries of ℓ ∈ [2, 3] instead of the 5 entries of the retained range
ℓ = 2, so the k-th sliced column is not paired with the m of the k-th
retained mode; the lists agree exactly when wa.ell_min = 2 and
wa.ell_max = min(wa.ell_max, wb.ell_max). -/
theorem align2d_phase_pairing_defect :
    align2dδϕFactor 2 3 ≠ mValues 2 (min 3 2)
    ∧ (align2dδϕFactor 2 3).length = 12
    ∧ (mValues 2 (min 3 2)).length = 5
    ∧ align2dδϕFactor 2 2 = mValues 2 2 :=
  ⟨by decide, by decide, by decide, rfl⟩

end ClaimC2

section ClaimC5

theorem broadcastMul_eq_of_len {C : Type*} [Field C] (rows : List (List C))
    (facs : List C) (h : ∀ r ∈ rows, r.length = facs.length) :
    broadcastMul rows facs
      = some (rows.map fun r => r.zipWith (fun a f => a * f) facs) := by
  unfold broadcastMul
  rw [if_pos]
  rw [List.all_eq_true]
  intro r hr
  simpa using h r hr

/-- C5 amended: for every valid call with `wa.ell_min = 2` and
`wa.ell_max ≤ wb.ell_max` (so that the phase-exponent array, built from
wa's full stored ℓ range, coincides with the retained range), `align2d`
builds `wa_prime` from wa's original (non-copy, non-filtered) mode data:
it re-samples the interpolant of wa's modes with ℓ ∈ [2, ℓ_max] at the
shifted times `wa.t + δt_opt`, multiplies the k-th mode column by
`phase ^ m_k` where `m_k` is that mode's own azimuthal index, and packages
the result with time axis `wa.t + δt_opt` and ℓ range [2, ℓ_max] with
`ℓ_max = min(wa.ell_max, wb.ell_max)`; modes excluded by `include_modes`
are not zeroed, since the construction consumes `wa` itself.  When
`wa.ell_min ≠ 2` or `wa.ell_max > wb.ell_max`, the exponent array has the
wrong length and the construction fails instead (see the
counterexample). -/
theorem align2d_waPrime_construction {K : Type*} [LinearOrderedField K]
    {C : Type*} [Field C]
    (splineC : List K → List (List C) → K → List C)
    (wa wb : WaveformModes K C) (δt : K) (phase : C)
    (h2 : wa.ell_min = 2) (hmx : wa.ell_max ≤ wb.ell_max)
    (hsp : ∀ s : K,
      (splineC wa.t (sliceCols wa.data (sliceLo wa.ell_min)
          (sliceHi wa.ell_min wa.ell_max)) s).length
        = (mValues 2 wa.ell_max).length) :
    align2dWaPrime splineC wa wb δt phase
      = some { t := wa.t.map fun t => t + δt,
               data := (wa.t.map fun t => t + δt).map fun s =>
                 (splineC wa.t (sliceCols wa.data (sliceLo wa.ell_min)
                     (sliceHi wa.ell_min wa.ell_max)) s).zipWith
                   (fun a f => a * f)
                   ((mValues 2 wa.ell_max).map fun m => phase ^ m),
               ell_min := 2, ell_max := min wa.ell_max wb.ell_max } := by
  unfold align2dWaPrime waPrime
  rw [min_eq_left hmx]
  have hfac : align2dδϕFactor wa.ell_min wa.ell_max
      = mValues 2 wa.ell_max := by
    rw [align2dδϕFactor, h2]
  rw [hfac]
  dsimp only
  rw [broadcastMul_eq_of_len]
  · dsimp only
    rw [List.map_map]
    rfl
  · intro r hr
    obtain ⟨s, _, rfl⟩ := List.mem_map.mp hr
    rw [List.length_map]
    exact hsp s

theorem align2d_waPrime_construction_w :
    (((⟨[0, 1], [], 2, 2⟩ : WaveformModes ℚ ℚ).ell_min = 2
        ∧ (⟨[0, 1], [], 2, 2⟩ : WaveformModes ℚ ℚ).ell_max
            ≤ (⟨[0, 1], [], 2, 2⟩ : WaveformModes ℚ ℚ).ell_max)
      ∧ ∀ s : ℚ, (List.replicate 5 (0 : ℚ)).length = (mValues 2 2).length)
    ∧ align2dWaPrime (fun _ _ _ => List.replicate 5 (0 : ℚ))
        (⟨[0, 1], [], 2, 2⟩ : WaveformModes ℚ ℚ) ⟨[0, 1], [], 2, 2⟩ 1 1
      = some { t := ([0, 1] : List ℚ).map fun t => t + 1,
               data := (([0, 1] : List ℚ).map fun t => t + 1).map fun _ =>
                 (List.replicate 5 (0 : ℚ)).zipWith (fun a f => a * f)
                   ((mValues 2 2).map fun m => (1 : ℚ) ^ m),
               ell_min := 2, ell_max := min 2 2 } :=
  ⟨⟨⟨rfl, by decide⟩, fun _ => by decide⟩, by
    have hs : ∀ s : ℚ,
        (List.replicate 5 (0 : ℚ)).length = (mValues 2 2).length :=
      fun _ => by decide
    exact align2d_waPrime_construction (K := ℚ) (C := ℚ)
      (fun _ _ _ => List.replicate 5 (0 : ℚ))
      ⟨[0, 1], [], 2, 2⟩ ⟨[0, 1], [], 2, 2⟩ 1 1 rfl (by decide) hs⟩

/-- C5 counterexample: a valid-window call (`t1 = 0 < 1 = t2`, both inside
both waveforms' spans) with wa's ℓ range [2, 3] and `wb.ell_max = 2`.  The
sliced mode array has the 5 columns of ℓ = 2 (the interpolant returns
5-vectors), but the exponent array has the 12 entries of wa's full range
[2, 3], so the construction of `wa_prime` fails (numpy broadcast error)
instead of producing the claimed waveform. -/
theorem align2d_waPrime_mismatch_fails :
    align2dWaPrime (K := ℚ) (C := ℂ) (fun _ _ _ => List.replicate 5 0)
        ⟨[0, 1], [], 2, 3⟩ ⟨[0, 1], [], 2, 2⟩ 0 1 = none
    ∧ ¬ badWindow ([0, 1] : List ℚ) [0, 1] 0 1 :=
  ⟨rfl, by decide⟩

end ClaimC5

section ClaimC7

/-- C7 counterexample: when `None` is passed for the δφ count, the grid
size is `2 * wa.ell_max + 1`, not `2 * min(wa.ell_max, wb.ell_max) + 1`:
with `wa.ell_max = 3` and `wb.ell_max = 2` the code produces 7 grid values
where the claim requires `2 * min(3, 2) + 1 = 5`. -/
theorem align2d_δϕ_count_from_wa_only :
    (linspaceFalse (0 : ℝ) (2 * Real.pi) (align2dNδϕ none 3)).length = 7
    ∧ align2dNδϕ none 3 ≠ 2 * (min 3 2 : ℤ).toNat + 1 := by
  constructor
  · rw [linspaceFalse_length]
    decide
  · decide

/-- C7 amended: the δφ grid of `align2d` consists of `n` evenly spaced
values in `[0, 2π)` — point `k` is `2π·k/n`, so every point is `≥ 0` and
`< 2π` and `2π` itself is never a grid point; the Python default is
`n = 5`; an explicit `None` yields `n = 2*wa.ell_max + 1` (wa's stored
ℓ_max, *not* `2·min(wa.ℓ_max, wb.ℓ_max)+1` as claimed); and the candidate
set is the full Cartesian product of the δt grid and the δφ grid. -/
theorem align2d_δϕ_grid_properties (n k : ℕ) (ell : ℤ) (xs ys : List ℝ)
    (p : ℝ × ℝ) (hk : k < n) (hell : 0 ≤ ell) :
    align2dNδϕ (some n) ell = n
    ∧ align2dNδϕ (some 5) ell = 5
    ∧ (align2dNδϕ none ell : ℤ) = 2 * ell + 1
    ∧ (linspaceFalse (0 : ℝ) (2 * Real.pi) n).length = n
    ∧ (linspaceFalse (0 : ℝ) (2 * Real.pi) n).getD k 0 = 2 * Real.pi * k / n
    ∧ 0 ≤ (linspaceFalse (0 : ℝ) (2 * Real.pi) n).getD k 0
    ∧ (linspaceFalse (0 : ℝ) (2 * Real.pi) n).getD k 0 < 2 * Real.pi
    ∧ (p ∈ gridProduct xs ys ↔ p.1 ∈ xs ∧ p.2 ∈ ys) := by
  have hn : 0 < n := lt_of_le_of_lt (Nat.zero_le k) hk
  have hgd : (linspaceFalse (0 : ℝ) (2 * Real.pi) n).getD k 0
      = 2 * Real.pi * k / n := by
    rw [linspaceFalse_getD _ _ hk]
    ring
  refine ⟨rfl, rfl, ?_, linspaceFalse_length _ _ _, hgd, ?_, ?_, ?_⟩
  · unfold align2dNδϕ
    rw [Int.toNat_of_nonneg (by linarith)]
  · rw [hgd]
    positivity
  · rw [hgd]
    have hnr : (0 : ℝ) < (n : ℝ) := by exact_mod_cast hn
    rw [div_lt_iff₀ hnr]
    have hkr : (k : ℝ) < (n : ℝ) := by exact_mod_cast hk
    nlinarith [Real.pi_pos]
  · unfold gridProduct
    simp only [List.mem_flatMap, List.mem_map]
    constructor
    · rintro ⟨x, hx, y, hy, rfl⟩
      exact ⟨hx, hy⟩
    · rintro ⟨h1, h2⟩
      exact ⟨p.1, h1, p.2, h2, rfl⟩

theorem align2d_δϕ_grid_properties_w :
    ((2 : ℕ) < 5 ∧ (0 : ℤ) ≤ 3)
    ∧ (linspaceFalse (0 : ℝ) (2 * Real.pi) 5).getD 2 0
        = 2 * Real.pi * 2 / 5 := by
  refine ⟨⟨by decide, by decide⟩, ?_⟩
  have h := (align2d_δϕ_grid_properties 5 2 3 [] [] (0, 0) (by decide)
    (by decide)).2.2.2.2.1
  push_cast at h
  exact h

end ClaimC7

section ClaimC10

/-- C10: `align2d`'s reference time grid is the contiguous slice of wa's
samples from the sample nearest `t1` through the sample nearest `t2`
(selected by nearest-sample index), so for some valid inputs its first
time is strictly less than `t1` — the concrete valid window `[4, 10]` on
samples `[0, 10, 20]` yields the grid `[0, 10]` with `0 < 4` — unlike
`align1d`'s reference grid, which contains exactly wa's samples inside
`[t1, t2]`. -/
theorem tReference_grids {K : Type*} [LinearOrderedField K]
    (wa : WaveformN K) (t1 t2 t : K)
    (hlen : wa.t.length = wa.norm.length) :
    (t ∈ t_reference wa t1 t2 ↔ t ∈ wa.t ∧ t1 ≤ t ∧ t ≤ t2)
    ∧ tReference2d ([0, 10, 20] : List ℚ) 4 10 = [0, 10]
    ∧ ¬ badWindow ([0, 10, 20] : List ℚ) [0, 10, 20] 4 10
    ∧ ((0 : ℚ) < 4) := by
  refine ⟨?_, by norm_num [tReference2d, argminIdx, abs], by decide, by decide⟩
  unfold t_reference windowSamples
  rw [map_fst_filter_zip _ wa.t wa.norm hlen]
  rw [List.mem_filter]
  simp [windowMask, and_assoc]

theorem tReference_grids_w :
    (([0, 10, 20] : List ℚ).length = ([1, 1, 1] : List ℚ).length)
    ∧ ((10 : ℚ) ∈ t_reference (⟨[0, 10, 20], [1, 1, 1]⟩ : WaveformN ℚ) 4 10
        ↔ (10 : ℚ) ∈ ([0, 10, 20] : List ℚ) ∧ (4 : ℚ) ≤ 10 ∧ (10 : ℚ) ≤ 10) :=
  ⟨rfl, (tReference_grids (⟨[0, 10, 20], [1, 1, 1]⟩ : WaveformN ℚ)
    4 10 10 rfl).1⟩

end ClaimC10

end SxsAlign
